import Mathlib

/-!
# Verification of the `smix` image mixer

Shallow embedding of the Rust sources `src/smix/src/lib.rs`,
`src/cli/src/main.rs` and `src/cli/src/gui.rs`.

Modelling conventions:
* Rust `f32` scalars are modelled as `ℚ` (exact arithmetic; the claims under
  scrutiny are structural/algebraic, not about floating-point rounding).
* An RGBA pixel (`Color = [f32; 4]`) is `Fin 4 → ℚ`, an image
  (`Rgba32FImage`) is a width, a height and a pixel getter `ℕ → ℕ → Color`.
* Fallible operations return `Except String _`; the `anyhow` error messages
  are carried verbatim.
* File-system reads and writes are abstracted: decoding a directory's three
  PNGs becomes a lookup in an environment `String → Option (Image × Image ×
  Image)`, and writes/warnings become an explicit event trace.
-/

namespace Smix

/-- RGBA color stored as `[R, G, B, A]`; embedding of `type Color = [f32; 4]`
(`src/smix/src/lib.rs`). -/
abbrev Color : Type := Fin 4 → ℚ

/-- The all-zero pixel `[0.0, 0.0, 0.0, 0.0]`: the value every pixel of a
fresh `Rgba32FImage::new` buffer holds, also a fully transparent pixel. -/
def zeroColor : Color := fun _ => 0

/-- Embedding of `apply_weight` (`src/smix/src/lib.rs` line 8):
`weight[0]*value[0] + weight[1]*value[1] + weight[2]*value[2]`. -/
def apply_weight (weight : Fin 3 → ℚ) (value : Fin 3 → ℚ) : ℚ :=
  weight 0 * value 0 + weight 1 * value 1 + weight 2 * value 2

/-- Embedding of `mix_pixel` (`src/smix/src/lib.rs` line 39): for each
`i in 0..3`, set `pixel[i] = apply_weight(weight, [mask[0][i], mask[1][i],
mask[2][i]])`; index 3 (alpha) is left as it was. -/
def mix_pixel (pixel : Color) (weight : Fin 3 → ℚ) (mask : Fin 3 → Color) :
    Color :=
  fun i =>
    if (i : ℕ) < 3 then apply_weight weight (fun j => mask j i) else pixel i

/-- An RGBA float image (`Rgba32FImage`): dimensions plus the pixel getter
`get_pixel`.  Values of `pix` outside the `width × height` grid are
irrelevant to the embedded code, which only touches in-bounds coordinates. -/
@[ext]
structure Image where
  width : ℕ
  height : ℕ
  pix : ℕ → ℕ → Color

/-- Embedding of `struct Mask` (`src/smix/src/lib.rs` line 60): the three
decoded mask images `[r, g, b]` plus the cached common dimensions. -/
structure Mask where
  images : Fin 3 → Image
  width : ℕ
  height : ℕ

/-- Embedding of `Mask::new` (`src/smix/src/lib.rs` line 67), with the three
`open(..)` decodes abstracted into the already-decoded images `r`, `g`, `b`
(r.png, g.png, b.png in that order).  Succeeds iff `images[0].dimensions()`
equals both other images' dimensions; otherwise returns the error
`"Masks have different demensions!"` (message verbatim from the source). -/
def Mask.new (r g b : Image) : Except String Mask :=
  if (r.width, r.height) = (g.width, g.height) ∧
      (r.width, r.height) = (b.width, b.height) then
    .ok { images := fun j => if j = 0 then r else if j = 1 then g else b,
          width := r.width, height := r.height }
  else
    .error "Masks have different demensions!"

/-- One pixel of `Mask::generate`'s output (`src/smix/src/lib.rs` line 86).
A fresh `Rgba32FImage` pixel is `[0,0,0,0]`; when the R-mask's alpha at
`(x,y)` is `0.0` the loop `continue`s, leaving that zero pixel; otherwise it
stores the alpha at index 3 and calls `mix_pixel` on the three mask samples. -/
def generatePixel (m : Mask) (weight : Fin 3 → ℚ) (x y : ℕ) : Color :=
  let alpha := (m.images 0).pix x y 3
  if alpha = 0 then zeroColor
  else
    mix_pixel (Function.update zeroColor 3 alpha) weight
      (fun j => (m.images j).pix x y)

/-- Embedding of `Mask::generate` (`src/smix/src/lib.rs` line 86): a
`width × height` image whose every pixel is `generatePixel`.  (The Rust loop
visits pixels independently, so the whole loop is this pointwise map.) -/
def Mask.generate (m : Mask) (weight : Fin 3 → ℚ) : Image where
  width := m.width
  height := m.height
  pix := fun x y => generatePixel m weight x y

end Smix

open Smix

/-- C1: for every in-out pixel, weight triple and mask triple, `mix_pixel`
sets each RGB output channel `c ∈ {R,G,B}` to exactly
`wR*mR[c] + wG*mG[c] + wB*mB[c]`; it is a total function (defined for all
numeric inputs, no error condition). -/
theorem C1_mix_pixel_formula (pixel : Color) (weight : Fin 3 → ℚ)
    (mask : Fin 3 → Color) (c : Fin 3) :
    mix_pixel pixel weight mask c.castSucc =
      weight 0 * mask 0 c.castSucc + weight 1 * mask 1 c.castSucc +
        weight 2 * mask 2 c.castSucc := by
  have hc : ((c.castSucc : Fin 4) : ℕ) < 3 := c.isLt
  simp [mix_pixel, apply_weight, hc]

/-- Modelled from the spec: the *normalizing* weighted average the spec's
testable property asserts for the mixer —
`(wR*vR + wG*vG + wB*vB) / (wR + wG + wB)`.  Named separately because no such
normalization exists anywhere in `src/`; it is the spec's words, to be
compared against `apply_weight`/`mix_pixel` from the source. -/
def specWeightedAverage (weight : Fin 3 → ℚ) (value : Fin 3 → ℚ) : ℚ :=
  apply_weight weight value / (weight 0 + weight 1 + weight 2)

/-- The pure red / green / blue unit masks from the doc-test of `mix_pixel`
(`src/smix/src/lib.rs` lines 29–37). -/
def pureMasks : Fin 3 → Color :=
  ![![1, 0, 0, 1], ![0, 1, 0, 1], ![0, 0, 1, 1]]

/-- The weight triple `[0.8, 0.15, 0.05]` of the doc-test, as exact
rationals. -/
def w815 : Fin 3 → ℚ := ![4/5, 3/20, 1/20]

/-- C2 counterexample: the claim asserts the mixer's output channel equals
the (normalized) weighted average for every weight triple of positive sum
and is invariant under uniform positive scaling of the weights.  Both fail
at the weight triple `[2,0,0]` (sum `2 > 0`) against the pure unit masks:
the code's red output is `2`, the weighted average is `1`, and doubling the
weights `[1,0,0]` doubled the output rather than leaving it invariant. -/
theorem C2_counterexample :
    mix_pixel zeroColor ![2, 0, 0] pureMasks 0 = 2 ∧
    specWeightedAverage ![2, 0, 0] (fun j => pureMasks j 0) = 1 ∧
    mix_pixel zeroColor ![1, 0, 0] pureMasks 0 = 1 ∧
    mix_pixel zeroColor ![2, 0, 0] pureMasks 0 ≠
      specWeightedAverage ![2, 0, 0] (fun j => pureMasks j 0) ∧
    mix_pixel zeroColor ![2, 0, 0] pureMasks 0 ≠
      mix_pixel zeroColor ![1, 0, 0] pureMasks 0 := by
  norm_num [mix_pixel, apply_weight, specWeightedAverage, pureMasks]

/-- C2 amended: the mixer's RGB output per channel is the *unnormalized*
weighted sum, so it equals the weighted average exactly when the weights sum
to 1; uniform scaling of the weights by `k` scales the output by `k`
(invariance holds only for `k = 1`); and weights `[0.8,0.15,0.05]` against
the pure red/green/blue unit masks yield exactly `[0.8,0.15,0.05]`. -/
theorem C2_amended (pixel : Color) (weight : Fin 3 → ℚ)
    (mask : Fin 3 → Color) (c : Fin 3) (k : ℚ)
    (hsum : weight 0 + weight 1 + weight 2 = 1) :
    mix_pixel pixel weight mask c.castSucc =
      specWeightedAverage weight (fun j => mask j c.castSucc) ∧
    mix_pixel pixel (fun j => k * weight j) mask c.castSucc =
      k * mix_pixel pixel weight mask c.castSucc ∧
    (mix_pixel ![0, 0, 0, 1] w815 pureMasks 0 = 4/5 ∧
      mix_pixel ![0, 0, 0, 1] w815 pureMasks 1 = 3/20 ∧
      mix_pixel ![0, 0, 0, 1] w815 pureMasks 2 = 1/20 ∧
      mix_pixel ![0, 0, 0, 1] w815 pureMasks 3 = 1) := by
  have hc : ((c.castSucc : Fin 4) : ℕ) < 3 := c.isLt
  refine ⟨?_, ?_, ?_⟩
  · simp [mix_pixel, apply_weight, specWeightedAverage, hc, hsum]
  · simp only [mix_pixel, apply_weight, hc, if_pos]
    ring
  · norm_num [mix_pixel, apply_weight, pureMasks, w815, Matrix.vecHead,
      Matrix.vecTail]

/-- Witness for `C2_amended` at the concrete weights `[0.8,0.15,0.05]`
(which sum to 1), channel R, scaling factor 3. -/
theorem C2_amended_witness :
    (4/5 : ℚ) + 3/20 + 1/20 = 1 ∧
    (mix_pixel zeroColor w815 pureMasks (0 : Fin 3).castSucc =
        specWeightedAverage w815 (fun j => pureMasks j (0 : Fin 3).castSucc) ∧
      mix_pixel zeroColor (fun j => 3 * w815 j) pureMasks
          (0 : Fin 3).castSucc =
        3 * mix_pixel zeroColor w815 pureMasks (0 : Fin 3).castSucc ∧
      (mix_pixel ![0, 0, 0, 1] w815 pureMasks 0 = 4/5 ∧
        mix_pixel ![0, 0, 0, 1] w815 pureMasks 1 = 3/20 ∧
        mix_pixel ![0, 0, 0, 1] w815 pureMasks 2 = 1/20 ∧
        mix_pixel ![0, 0, 0, 1] w815 pureMasks 3 = 1)) := by
  constructor
  · norm_num
  · exact C2_amended zeroColor w815 pureMasks 0 3 (by norm_num [w815])

/-- Unfolded form of one generated pixel: alpha is stored at index 3, RGB
comes from `mix_pixel`. -/
theorem generatePixel_eq (m : Mask) (weight : Fin 3 → ℚ) (x y : ℕ) :
    generatePixel m weight x y =
      (if (m.images 0).pix x y 3 = 0 then zeroColor
       else mix_pixel (Function.update zeroColor 3 ((m.images 0).pix x y 3))
              weight (fun j => (m.images j).pix x y)) := rfl

/-- C3: for every mask set, weight triple and in-bounds pixel coordinate,
the generated image's alpha equals the R-mask's alpha there verbatim, and
whenever that alpha is 0 the whole output pixel is the fully transparent
`[0,0,0,0]`, independently of the weights.  (The source also skips the RGB
computation in that case — `continue` before `mix_pixel` — which the
functional model renders as the untouched zero pixel.) -/
theorem C3_alpha_passthrough (m : Mask) (weight : Fin 3 → ℚ) (x y : ℕ)
    (hx : x < m.width) (hy : y < m.height) :
    (m.generate weight).pix x y 3 = (m.images 0).pix x y 3 ∧
    ((m.images 0).pix x y 3 = 0 → (m.generate weight).pix x y = zeroColor) := by
  constructor
  · show generatePixel m weight x y 3 = (m.images 0).pix x y 3
    rw [generatePixel_eq]
    by_cases hα : (m.images 0).pix x y 3 = 0
    · simp [hα, zeroColor]
    · have h3 : ¬ (((3 : Fin 4) : ℕ) < 3) := by decide
      rw [if_neg hα]
      simp only [mix_pixel]
      rw [if_neg h3, Function.update_same]
  · intro hα
    show generatePixel m weight x y = zeroColor
    rw [generatePixel_eq, if_pos hα]

/-- A concrete 2×2 mask set whose R-mask has alpha 0 everywhere. -/
def maskZeroAlpha : Mask where
  images := fun _ => { width := 2, height := 2, pix := fun _ _ => ![1/2, 1, 0, 0] }
  width := 2
  height := 2

/-- Witness for `C3_alpha_passthrough` at the mask set `maskZeroAlpha`,
weights `[0.8,0.15,0.05]` and coordinate `(1,0)`. -/
theorem C3_alpha_passthrough_witness :
    (1 < maskZeroAlpha.width ∧ 0 < maskZeroAlpha.height) ∧
    ((maskZeroAlpha.generate w815).pix 1 0 3 =
        (maskZeroAlpha.images 0).pix 1 0 3 ∧
      ((maskZeroAlpha.images 0).pix 1 0 3 = 0 →
        (maskZeroAlpha.generate w815).pix 1 0 = zeroColor)) := by
  refine ⟨⟨by norm_num [maskZeroAlpha], by norm_num [maskZeroAlpha]⟩, ?_⟩
  exact C3_alpha_passthrough maskZeroAlpha w815 1 0
    (by norm_num [maskZeroAlpha]) (by norm_num [maskZeroAlpha])

/-- C10: the alpha components of the G-mask and the B-mask never influence
the output.  If two mask sets share dimensions, have identical R-mask pixel
data, and their G- and B-mask images agree in dimensions and in every
non-alpha component, then `Mask::generate` produces identical output images
for every weight triple. -/
theorem C10_gb_alpha_noninterference (m1 m2 : Mask) (weight : Fin 3 → ℚ)
    (hw : m1.width = m2.width) (hh : m1.height = m2.height)
    (hdim : ∀ j : Fin 3, (m1.images j).width = (m2.images j).width ∧
      (m1.images j).height = (m2.images j).height)
    (h0 : ∀ x y, (m1.images 0).pix x y = (m2.images 0).pix x y)
    (hgb : ∀ j : Fin 3, j ≠ 0 → ∀ x y, ∀ i : Fin 4, (i : ℕ) ≠ 3 →
      (m1.images j).pix x y i = (m2.images j).pix x y i) :
    m1.generate weight = m2.generate weight := by
  have hpix : ∀ x y, generatePixel m1 weight x y = generatePixel m2 weight x y := by
    intro x y
    have hmask : ∀ i : Fin 4, (i : ℕ) < 3 →
        (fun j => (m1.images j).pix x y i) =
          (fun j => (m2.images j).pix x y i) := by
      intro i hi
      funext j
      by_cases hj : j = 0
      · rw [hj, h0]
      · exact hgb j hj x y i (by omega)
    rw [generatePixel_eq, generatePixel_eq, h0]
    by_cases hα : (m2.images 0).pix x y 3 = 0
    · rw [if_pos hα, if_pos hα]
    · rw [if_neg hα, if_neg hα]
      funext i
      unfold mix_pixel
      by_cases hi : (i : ℕ) < 3
      · rw [if_pos hi, if_pos hi, hmask i hi]
      · rw [if_neg hi, if_neg hi]
  have hg : (m1.generate weight).pix = (m2.generate weight).pix := by
    funext x y
    exact hpix x y
  exact Image.ext hw hh hg

/-- A 2×2 image every pixel of which is the color `c`. -/
def constImg (c : Color) : Image where
  width := 2
  height := 2
  pix := fun _ _ => c

/-- A 2×2 mask set whose G- and B-mask alpha is the parameter `a`; used to
exhibit two mask sets differing only in G/B alpha. -/
def maskGA (a : ℚ) : Mask where
  images := fun j => if j = 0 then constImg ![1, 0, 0, 1]
    else constImg ![0, 1, 0, a]
  width := 2
  height := 2

/-- Witness for `C10_gb_alpha_noninterference`: the two concrete mask sets
`maskGA 0` and `maskGA 1` differ in their G-mask's alpha yet generate the
same image under weights `[0.8,0.15,0.05]`. -/
theorem C10_gb_alpha_noninterference_witness :
    ((maskGA 0).images 1).pix 0 0 3 ≠ ((maskGA 1).images 1).pix 0 0 3 ∧
    (maskGA 0).generate w815 = (maskGA 1).generate w815 := by
  constructor
  · norm_num [maskGA, constImg]
  · refine C10_gb_alpha_noninterference (maskGA 0) (maskGA 1) w815 rfl rfl
      ?_ ?_ ?_
    · intro j
      by_cases hj : j = 0 <;> simp [maskGA, constImg, hj]
    · intro x y
      rfl
    · intro j hj x y i hi
      simp only [maskGA, constImg, if_neg hj]
      fin_cases i
      · rfl
      · rfl
      · rfl
      · exact absurd rfl hi

namespace Smix

/-- Embedding of `GeneratedImage::export_name` (`src/smix/src/lib.rs`
line 115) — also the format string of `Tool::generate`
(`src/cli/src/main.rs` line 147): `"{basename}_{width}x{height}.png"`. -/
def export_name (basename : String) (width height : ℕ) : String :=
  basename ++ "_" ++ toString width ++ "x" ++ toString height ++ ".png"

/-- `f32::clamp(0.0, 1.0)`. -/
def clamp01 (q : ℚ) : ℚ := max 0 (min 1 q)

/-- One channel of the float→byte conversion of `f32img_to_u8img`
(`src/smix/src/lib.rs` line 45, identically `src/cli/src/main.rs` line 48):
`(v.clamp(0.0, 1.0) * 255.0).round() as u8`.  Rust `round` is
round-half-away-from-zero, which on the nonnegative clamped value is
`⌊v*255 + 1/2⌋`. -/
def byteOf (q : ℚ) : ℤ := ⌊clamp01 q * 255 + 1/2⌋

/-- Embedding of `f32img_to_u8img`: same dimensions, every channel
quantized by `byteOf` (the byte is carried as an integer-valued `ℚ`). -/
def f32img_to_u8img (src : Image) : Image where
  width := src.width
  height := src.height
  pix := fun x y i => ((byteOf (src.pix x y i) : ℤ) : ℚ)

end Smix

namespace Cli

open Smix

/-- Embedding of `enum Filter` (`src/cli/src/main.rs` line 63). -/
inductive Filter where
  | Nearest
  | Bilinear
  | CatmullRom
  | Gaussian
  | Lanczos3
  deriving DecidableEq

/-- Embedding of the CLI's `struct Mask([Rgba32FImage; 3])`
(`src/cli/src/main.rs` line 90). -/
structure CMask where
  imgs : Fin 3 → Image

/-- Embedding of `Mask::good` (`src/cli/src/main.rs` line 102):
`self.0[0].dimensions() == self.0[1].dimensions() &&
 self.0[1].dimensions() == self.0[2].dimensions()`. -/
def CMask.good (m : CMask) : Bool :=
  decide (((m.imgs 0).width, (m.imgs 0).height) =
      ((m.imgs 1).width, (m.imgs 1).height)) &&
  decide (((m.imgs 1).width, (m.imgs 1).height) =
      ((m.imgs 2).width, (m.imgs 2).height))

/-- Embedding of the CLI's `Mask::generate` (`src/cli/src/main.rs`
line 106): dimensions are taken from `self.0[0]`, the per-pixel loop is the
same as the library's `Mask::generate`, and the result is pushed through
`f32img_to_u8img`. -/
def CMask.generate (m : CMask) (weight : Fin 3 → ℚ) : Image :=
  f32img_to_u8img
    (Mask.generate
      { images := m.imgs, width := (m.imgs 0).width,
        height := (m.imgs 0).height } weight)

/-- The mask-set label of `Tool::load_mask` (`src/cli/src/main.rs`
line 167): `format!("{}", path.display()).split("/").last()
.unwrap_or("result")` — the final `/`-separated path component. -/
def basename (path : String) : String :=
  ((path.splitOn "/").getLast?).getD "result"

/-- `HashMap::insert` on the association list modelling
`Tool::images`: replaces any existing binding of the key. -/
def insertImg (m : List (String × Image)) (k : String) (v : Image) :
    List (String × Image) :=
  m.filter (fun p => p.1 != k) ++ [(k, v)]

/-- Events observable in a run: directory creation, a mask-directory read,
the negative-scale warning `println!` of `Tool::generate` (with the
offending value and its index), and a PNG write. -/
inductive Event where
  | createDir (path : String)
  | readMask (dir : String)
  | warn (s : ℚ) (idx : ℕ)
  | save (path : String) (nw nh : ℕ)
  deriving DecidableEq

/-- Embedding of `Tool::load_mask` (`src/cli/src/main.rs` line 162) over
the directory environment `fs` (the three decoded `r.png`, `g.png`, `b.png`
of each directory, `none` when opening fails).  Returns the final `images`
map together with the trace of attempted directory reads. -/
def load_mask (weight : Fin 3 → ℚ)
    (fs : String → Option (Image × Image × Image)) :
    List String → List (String × Image) →
      Except String (List (String × Image)) × List Event
  | [], acc => (.ok acc, [])
  | d :: rest, acc =>
    match fs d with
    | none => (.error ("IO error: " ++ d), [.readMask d])
    | some (r, g, b) =>
      let m : CMask := ⟨![r, g, b]⟩
      if m.good then
        let next := load_mask weight fs rest
          (insertImg acc (basename d) (m.generate weight))
        (next.1, .readMask d :: next.2)
      else
        (.error ("mask: " ++ d ++ " has different demensions"), [.readMask d])

/-- `(width as f32 * s) as u32` (`src/cli/src/main.rs` lines 144–145): for
the nonnegative products that reach this cast, truncation toward zero is
the floor; a negative product saturates to 0, matching `Int.toNat`. -/
def scaledDim (n : ℕ) (s : ℚ) : ℕ := (⌊(n : ℚ) * s⌋).toNat

/-- The inner loop of `Tool::generate` (`src/cli/src/main.rs` lines
137–157) for one enumerated scale factor `(idx, s)`: per image, either the
negative-scale warning (`if s < 0.0 { println!(..); continue; }`) or one
saved PNG `output.join("{name}_{nw}x{nh}.png")`. -/
def processScale (outdir : String) (idx : ℕ) (s : ℚ)
    (images : List (String × Image)) : List Event :=
  images.flatMap (fun p =>
    if s < 0 then [Event.warn s idx]
    else
      [Event.save (outdir ++ "/" ++
          export_name p.1 (scaledDim p.2.width s) (scaledDim p.2.height s))
        (scaledDim p.2.width s) (scaledDim p.2.height s)])

/-- The outer loop of `Tool::generate`: `for (i, &s) in
self.args.scale.iter().enumerate()`, starting at index `idx`. -/
def runScales (outdir : String) : ℕ → List ℚ → List (String × Image) →
    List Event
  | _, [], _ => []
  | idx, s :: rest, images =>
    processScale outdir idx s images ++ runScales outdir (idx + 1) rest images

/-- Embedding of `Tool::generate` (`src/cli/src/main.rs` line 136). -/
def generateRun (outdir : String) (scale : List ℚ)
    (images : List (String × Image)) : List Event :=
  runScales outdir 0 scale images

end Cli

namespace Cli

/-- Rust `Vec::dedup` (used by `Tool::ensure_args`): removes *consecutive*
repeated elements, keeping the first of each run. -/
def dedupAdj : List ℚ → List ℚ
  | [] => []
  | [a] => [a]
  | a :: b :: rest =>
    if a = b then dedupAdj (b :: rest) else a :: dedupAdj (b :: rest)

/-- The scale-list normalization of `Tool::ensure_args`
(`src/cli/src/main.rs` lines 184–186): `scale.push(1.0)`, sort ascending,
`dedup`.  (`sort_by(partial_cmp ..)` on the `ℚ`-modelled floats is sorting
by `≤`; `insertionSort` produces the same sorted permutation.) -/
def normalizeScale (scale : List ℚ) : List ℚ :=
  dedupAdj (List.insertionSort (· ≤ ·) (scale ++ [1]))

/-- Embedding of the CLI `struct Args` (`src/cli/src/main.rs` line 11). -/
structure Args where
  r : ℚ
  g : ℚ
  b : ℚ
  output : String
  mask_directories : List String
  scale : List ℚ
  filter : Filter

/-- Embedding of `Tool::ensure_args` (`src/cli/src/main.rs` line 177):
three `ensure!` range checks (each failing with the message naming its
channel), then scale normalization, then — only then — creation of the
output directory when absent (`outputExists` abstracts
`args.output.exists()`).  Returns the updated args and the I/O events
performed. -/
def ensure_args (a : Args) (outputExists : Bool) :
    Except String (Args × List Event) :=
  if ¬ (0 ≤ a.r ∧ a.r ≤ 1) then .error "Red weight must be in [0, 1]"
  else if ¬ (0 ≤ a.g ∧ a.g ≤ 1) then .error "Green weight must be in [0, 1]"
  else if ¬ (0 ≤ a.b ∧ a.b ≤ 1) then .error "Blue weight must be in [0, 1]"
  else
    .ok ({ a with scale := normalizeScale a.scale },
      if outputExists then [] else [Event.createDir a.output])

/-- Embedding of `main` (`src/cli/src/main.rs` line 36):
`ensure_args()? ; load_mask()? ; generate()?`, with the performed I/O
events accumulated in order. -/
def mainRun (a : Args) (outputExists : Bool)
    (fs : String → Option (Image × Image × Image)) :
    Except String Unit × List Event :=
  match ensure_args a outputExists with
  | .error e => (.error e, [])
  | .ok (a2, evs1) =>
    match load_mask ![a2.r, a2.g, a2.b] fs a2.mask_directories [] with
    | (.error e, evs2) => (.error e, evs1 ++ evs2)
    | (.ok imgs, evs2) =>
      (.ok (), evs1 ++ evs2 ++ generateRun a2.output a2.scale imgs)

end Cli

namespace Smix

/-- Embedding of `struct GeneratedImage` (`src/smix/src/lib.rs` line 102):
the float image and its 8-bit quantization, as built by
`GeneratedImage::new`. -/
structure GeneratedImage where
  img32f : Image
  img : Image

/-- `GeneratedImage::new` (`src/smix/src/lib.rs` line 108). -/
def GeneratedImage.new (img : Image) : GeneratedImage where
  img32f := img
  img := f32img_to_u8img img

end Smix

namespace Gui

open Smix Cli

/-- Embedding of the GUI `struct Args` (`src/cli/src/gui.rs` line 10): the
live preview state — weight triple, display scale, selected mask key.
(There is no filter field.) -/
structure GArgs where
  weight : Fin 3 → ℚ
  scale : ℚ
  key : String

/-- The export performed by the `Save` button: which full-resolution image
is regenerated, the target dimensions, the dialog's suggested file name,
the resampling filter passed to `save_as`, and the destination path. -/
structure ExportRequest where
  source : GeneratedImage
  nwidth : ℕ
  nheight : ℕ
  suggested : String
  filter : Filter
  path : String

/-- Embedding of the `Save` branch of `PreView::update`
(`src/cli/src/gui.rs` lines 103–121): regenerate
`self.masks[&self.current.key].generate(&self.current.weight)` at full
resolution, scale its dimensions by `self.current.scale`, suggest
`export_name(key, nw, nh)` in the file dialog, and export via
`img.save_as(path, nw, nh, imageops::FilterType::Lanczos3)` to the
dialog-chosen `chosen` path.  The filter argument is the literal
`Lanczos3`. -/
def save_action (masks : String → Mask) (current : GArgs) (chosen : String) :
    ExportRequest :=
  let img := GeneratedImage.new ((masks current.key).generate current.weight)
  let nw := scaledDim img.img.width current.scale
  let nh := scaledDim img.img.height current.scale
  { source := img
    nwidth := nw
    nheight := nh
    suggested := export_name current.key nw nh
    filter := Filter.Lanczos3
    path := chosen }

end Gui

/-- C4: loading a mask set succeeds iff all three images share identical
width and height; whenever any two of the three differ, the library loader
returns the `DimensionMismatch` error verbatim, and the CLI loader
(`Tool::load_mask` via `Mask::good`) aborts that set with its own
dimension-mismatch error.  Nothing is produced in the error case — no
truncation or stretching. -/
theorem C4_dimension_mismatch (r g b : Image) :
    ((∃ m, Mask.new r g b = .ok m) ↔
      ((r.width, r.height) = (g.width, g.height) ∧
        (r.width, r.height) = (b.width, b.height))) ∧
    (((r.width, r.height) ≠ (g.width, g.height) ∨
        (r.width, r.height) ≠ (b.width, b.height) ∨
        (g.width, g.height) ≠ (b.width, b.height)) →
      Mask.new r g b = .error "Masks have different demensions!") ∧
    (∀ (weight : Fin 3 → ℚ)
      (fs : String → Option (Image × Image × Image)) (d : String),
      fs d = some (r, g, b) →
      (((r.width, r.height) ≠ (g.width, g.height)) ∨
        ((g.width, g.height) ≠ (b.width, b.height))) →
      (Cli.load_mask weight fs [d] []).1 =
        .error ("mask: " ++ d ++ " has different demensions")) := by
  refine ⟨?_, ?_, ?_⟩
  · constructor
    · rintro ⟨m, hm⟩
      by_contra hcond
      rw [Mask.new, if_neg hcond] at hm
      exact Except.noConfusion hm
    · intro hcond
      exact ⟨_, by rw [Mask.new, if_pos hcond]⟩
  · intro htwo
    have hcond : ¬ ((r.width, r.height) = (g.width, g.height) ∧
        (r.width, r.height) = (b.width, b.height)) := by
      rintro ⟨h1, h2⟩
      rcases htwo with h | h | h
      · exact h h1
      · exact h h2
      · exact h (h1 ▸ h2)
    rw [Mask.new, if_neg hcond]
  · intro weight fs d hfs htwo
    have hgood : (Cli.CMask.good ⟨![r, g, b]⟩) = false := by
      rw [Cli.CMask.good]
      simp only [Matrix.cons_val_zero, Matrix.cons_val_one, Matrix.vecHead,
        Matrix.cons_val_two, Matrix.vecTail, Bool.and_eq_false_iff,
        decide_eq_false_iff_not]
      rcases htwo with h | h
      · exact Or.inl h
      · exact Or.inr h
    rw [Cli.load_mask, hfs]
    simp only [hgood, Bool.false_eq_true, if_false]

/-- A 1×1 image, dimension-mismatched with `constImg`'s 2×2 images. -/
def img1x1 : Image where
  width := 1
  height := 1
  pix := fun _ _ => ![0, 0, 0, 1]

/-- Witness for `C4_dimension_mismatch`: with r.png and g.png 2×2 but b.png
1×1 (two of the three differing), both loaders reject the set. -/
theorem C4_dimension_mismatch_witness :
    Mask.new (constImg ![1, 0, 0, 1]) (constImg ![0, 1, 0, 1]) img1x1 =
      .error "Masks have different demensions!" ∧
    (Cli.load_mask w815
        (fun d => if d = "sets/alpha"
          then some (constImg ![1, 0, 0, 1], constImg ![0, 1, 0, 1], img1x1)
          else none)
        ["sets/alpha"] []).1 =
      .error ("mask: " ++ "sets/alpha" ++ " has different demensions") := by
  have hd : ((constImg ![1, 0, 0, 1]).width, (constImg ![1, 0, 0, 1]).height) ≠
      (img1x1.width, img1x1.height) := by
    simp [constImg, img1x1]
  have hd2 : ((constImg ![0, 1, 0, 1]).width, (constImg ![0, 1, 0, 1]).height) ≠
      (img1x1.width, img1x1.height) := by
    simp [constImg, img1x1]
  constructor
  · exact (C4_dimension_mismatch (constImg ![1, 0, 0, 1])
      (constImg ![0, 1, 0, 1]) img1x1).2.1 (Or.inr (Or.inl hd))
  · exact (C4_dimension_mismatch (constImg ![1, 0, 0, 1])
      (constImg ![0, 1, 0, 1]) img1x1).2.2 w815 _ "sets/alpha" (by simp)
      (Or.inr hd2)

namespace Cli

theorem dedupAdj_sublist : ∀ l : List ℚ, List.Sublist (dedupAdj l) l
  | [] => by simp [dedupAdj]
  | [a] => by simp [dedupAdj]
  | a :: b :: rest => by
    by_cases h : a = b
    · rw [dedupAdj, if_pos h]
      exact (dedupAdj_sublist (b :: rest)).cons a
    · rw [dedupAdj, if_neg h]
      exact (dedupAdj_sublist (b :: rest)).cons₂ a

theorem mem_dedupAdj {x : ℚ} : ∀ {l : List ℚ}, x ∈ dedupAdj l ↔ x ∈ l
  | [] => by simp [dedupAdj]
  | [a] => by simp [dedupAdj]
  | a :: b :: rest => by
    by_cases h : a = b
    · rw [dedupAdj, if_pos h, mem_dedupAdj (l := b :: rest)]
      subst h
      simp only [List.mem_cons]
      tauto
    · rw [dedupAdj, if_neg h]
      simp only [List.mem_cons, mem_dedupAdj (l := b :: rest)]

theorem dedupAdj_head? : ∀ (a : ℚ) (l : List ℚ),
    (dedupAdj (a :: l)).head? = some a
  | _, [] => rfl
  | a, b :: rest => by
    by_cases h : a = b
    · simp only [dedupAdj, if_pos h]
      rw [h]
      exact dedupAdj_head? b rest
    · simp only [dedupAdj, if_neg h, List.head?_cons]

theorem chain'_lt_dedupAdj : ∀ {l : List ℚ},
    List.Sorted (· ≤ ·) l → List.Chain' (· < ·) (dedupAdj l)
  | [], _ => by simp [dedupAdj]
  | [a], _ => by simp [dedupAdj]
  | a :: b :: rest, h => by
    have hab : a ≤ b := (List.sorted_cons.mp h).1 b (by simp)
    have htail : List.Sorted (· ≤ ·) (b :: rest) := (List.sorted_cons.mp h).2
    by_cases heq : a = b
    · simp only [dedupAdj, if_pos heq]
      exact chain'_lt_dedupAdj htail
    · simp only [dedupAdj, if_neg heq]
      refine List.chain'_cons'.mpr ⟨?_, chain'_lt_dedupAdj htail⟩
      intro y hy
      rw [dedupAdj_head? b rest, Option.mem_some_iff] at hy
      subst hy
      exact lt_of_le_of_ne hab heq

end Cli

/-- C6: after `Tool::ensure_args` normalizes the scale list — push 1.0,
sort ascending, dedup — the list contains 1.0 even when not supplied,
is sorted, and holds no duplicate values. -/
theorem C6_scale_normalized (scale : List ℚ) :
    (1 : ℚ) ∈ Cli.normalizeScale scale ∧
    List.Sorted (· ≤ ·) (Cli.normalizeScale scale) ∧
    (Cli.normalizeScale scale).Nodup := by
  have hsorted : List.Sorted (· ≤ ·)
      (List.insertionSort (· ≤ ·) (scale ++ [1])) :=
    List.sorted_insertionSort _ _
  refine ⟨?_, ?_, ?_⟩
  · rw [Cli.normalizeScale, Cli.mem_dedupAdj, List.mem_insertionSort]
    simp
  · exact List.Pairwise.sublist (Cli.dedupAdj_sublist _) hsorted
  · have hpw : (Cli.normalizeScale scale).Pairwise (· < ·) :=
      List.chain'_iff_pairwise.mp (Cli.chain'_lt_dedupAdj hsorted)
    exact hpw.imp ne_of_lt

namespace Cli

theorem processScale_neg (outdir : String) (idx : ℕ) (s : ℚ)
    (images : List (String × Image)) (hs : s < 0) :
    processScale outdir idx s images =
      images.map (fun _ => Event.warn s idx) := by
  induction images with
  | nil => rfl
  | cons p t ih =>
    simp only [processScale, List.flatMap_cons, if_pos hs] at *
    rw [ih]
    rfl

theorem processScale_nonneg (outdir : String) (idx : ℕ) (s : ℚ)
    (images : List (String × Image)) (hs : ¬ s < 0) :
    processScale outdir idx s images =
      images.map (fun p =>
        Event.save (outdir ++ "/" ++
            export_name p.1 (scaledDim p.2.width s) (scaledDim p.2.height s))
          (scaledDim p.2.width s) (scaledDim p.2.height s)) := by
  induction images with
  | nil => rfl
  | cons p t ih =>
    simp only [processScale, List.flatMap_cons, if_neg hs] at *
    rw [ih]
    rfl

/-- Whether an event is a PNG write. -/
def Event.isSave : Event → Bool
  | .save _ _ _ => true
  | _ => false

end Cli

/-- C5 counterexample: the claim says every *non-positive* scale value is
warned about and skipped at generation time.  The code's guard is
`if s < 0.0`, so the non-positive value `0` is neither warned about nor
skipped: the run for scale list `[0]` over one 2×2 mask-set writes a
(degenerate) `m_0x0.png` and emits no warning. -/
theorem C5_counterexample :
    Cli.generateRun "output" [0] [("m", constImg ![1, 0, 0, 1])] =
      [Cli.Event.save "output/m_0x0.png" 0 0] ∧
    (∀ idx : ℕ, Cli.Event.warn 0 idx ∉
      Cli.generateRun "output" [0] [("m", constImg ![1, 0, 0, 1])]) := by
  have h : Cli.generateRun "output" [0] [("m", constImg ![1, 0, 0, 1])] =
      [Cli.Event.save "output/m_0x0.png" 0 0] := by
    show Cli.processScale "output" 0 0 [("m", constImg ![1, 0, 0, 1])] ++ [] =
      _
    rw [Cli.processScale_nonneg _ _ _ _ (by norm_num)]
    have h2 : Cli.scaledDim (constImg ![1, 0, 0, 1]).width 0 = 0 := by
      norm_num [Cli.scaledDim, constImg]
    have h3 : Cli.scaledDim (constImg ![1, 0, 0, 1]).height 0 = 0 := by
      norm_num [Cli.scaledDim, constImg]
    simp only [List.map_cons, List.map_nil, List.append_nil, h2, h3]
    rfl
  refine ⟨h, ?_⟩
  intro idx
  rw [h]
  simp

/-- C5 amended: every *negative* value in the scale list produces one
warning per mask-set and no output file for those pairs, without aborting
the remaining scale factors or mask-sets of the run (the trace simply
continues with the next factor); and negative values survive the parse-time
normalization of `ensure_args` untouched, so the skip indeed happens at
generation time.  (Zero is *not* skipped — see the counterexample.) -/
theorem C5_amended (outdir : String) (images : List (String × Image))
    (scales : List ℚ) (idx : ℕ) (s : ℚ) (hs : s < 0) :
    Cli.processScale outdir idx s images =
      images.map (fun _ => Cli.Event.warn s idx) ∧
    Cli.runScales outdir idx (s :: scales) images =
      images.map (fun _ => Cli.Event.warn s idx) ++
        Cli.runScales outdir (idx + 1) scales images ∧
    (s ∈ scales → s ∈ Cli.normalizeScale scales) := by
  refine ⟨Cli.processScale_neg outdir idx s images hs, ?_, ?_⟩
  · rw [Cli.runScales, Cli.processScale_neg outdir idx s images hs]
  · intro hmem
    rw [Cli.normalizeScale, Cli.mem_dedupAdj, List.mem_insertionSort]
    exact List.mem_append_left _ hmem

/-- Witness for `C5_amended` at scale `-1` over one mask-set, with the
sibling factor list `[-1, 2]`. -/
theorem C5_amended_witness :
    (-1 : ℚ) < 0 ∧
    (Cli.processScale "output" 0 (-1) [("m", constImg ![1, 0, 0, 1])] =
        [("m", constImg ![1, 0, 0, 1])].map
          (fun _ => Cli.Event.warn (-1) 0) ∧
      Cli.runScales "output" 0 ((-1) :: [(-1), 2])
          [("m", constImg ![1, 0, 0, 1])] =
        [("m", constImg ![1, 0, 0, 1])].map (fun _ => Cli.Event.warn (-1) 0) ++
          Cli.runScales "output" (0 + 1) [(-1), 2]
            [("m", constImg ![1, 0, 0, 1])] ∧
      ((-1 : ℚ) ∈ [(-1 : ℚ), 2] → (-1 : ℚ) ∈ Cli.normalizeScale [(-1), 2])) := by
  exact ⟨by norm_num,
    C5_amended "output" [("m", constImg ![1, 0, 0, 1])] [(-1), 2] 0 (-1)
      (by norm_num)⟩

/-- C7 counterexample: the claim promises exactly one PNG per
(mask-directory, scale-factor) pair in every run.  A run whose `--scale -1`
survives normalization (`normalizeScale [-1] = [-1, 1]`) has two pairs for
its one mask-set but writes only one file: the `-1` factor is skipped with
a warning, so that pair produces no PNG. -/
theorem C7_counterexample :
    Cli.normalizeScale [-1] = [-1, 1] ∧
    Cli.generateRun "output" (Cli.normalizeScale [-1])
        [("m", constImg ![1, 0, 0, 1])] =
      [Cli.Event.warn (-1) 0, Cli.Event.save "output/m_2x2.png" 2 2] ∧
    ((Cli.generateRun "output" (Cli.normalizeScale [-1])
        [("m", constImg ![1, 0, 0, 1])]).filter Cli.Event.isSave).length = 1 ∧
    (Cli.normalizeScale [-1]).length *
      ([("m", constImg ![1, 0, 0, 1])] : List (String × Image)).length = 2 ∧
    (1 : ℕ) ≠ 2 := by
  have hns : Cli.normalizeScale [-1] = [-1, 1] := by
    norm_num [Cli.normalizeScale, List.insertionSort, List.orderedInsert,
      Cli.dedupAdj]
  have htrace : Cli.generateRun "output" (Cli.normalizeScale [-1])
      [("m", constImg ![1, 0, 0, 1])] =
      [Cli.Event.warn (-1) 0, Cli.Event.save "output/m_2x2.png" 2 2] := by
    rw [hns]
    show Cli.processScale "output" 0 (-1) [("m", constImg ![1, 0, 0, 1])] ++
      (Cli.processScale "output" 1 1 [("m", constImg ![1, 0, 0, 1])] ++ []) = _
    rw [Cli.processScale_neg _ _ _ _ (by norm_num),
      Cli.processScale_nonneg _ _ _ _ (by norm_num)]
    have h2 : Cli.scaledDim (constImg ![1, 0, 0, 1]).width 1 = 2 := by
      norm_num [Cli.scaledDim, constImg]
      rfl
    have h3 : Cli.scaledDim (constImg ![1, 0, 0, 1]).height 1 = 2 := by
      norm_num [Cli.scaledDim, constImg]
      rfl
    simp only [List.map_cons, List.map_nil, List.append_nil, h2, h3]
    rfl
  refine ⟨hns, htrace, ?_, ?_, by norm_num⟩
  · rw [htrace]
    rfl
  · rw [hns]
    rfl

/-- C7 amended: for every run segment whose scale factors are all
nonnegative, `Tool::generate` writes exactly one PNG per (mask-set,
scale-factor) pair, named `<name>_<nw>x<nh>.png` with `nw`/`nh` the scaled
dimensions, into the output directory; and `Tool::load_mask` registers each
successfully loaded directory under its final path component, the `name`
those files are named by.  (Negative factors produce no file for their
pairs — see the counterexample; the claim holds once they are excluded.) -/
theorem C7_amended (outdir : String) (images : List (String × Image))
    (scales : List ℚ) (hs : ∀ s ∈ scales, 0 ≤ s) :
    Cli.generateRun outdir scales images =
      scales.flatMap (fun s => images.map (fun p =>
        Cli.Event.save (outdir ++ "/" ++
            export_name p.1 (Cli.scaledDim p.2.width s)
              (Cli.scaledDim p.2.height s))
          (Cli.scaledDim p.2.width s) (Cli.scaledDim p.2.height s))) ∧
    (∀ (weight : Fin 3 → ℚ) (fs : String → Option (Image × Image × Image))
      (d : String) (r g b : Image), fs d = some (r, g, b) →
      Cli.CMask.good ⟨![r, g, b]⟩ = true →
      (Cli.load_mask weight fs [d] []).1 =
        .ok [(Cli.basename d, Cli.CMask.generate ⟨![r, g, b]⟩ weight)]) := by
  constructor
  · have key : ∀ (sc : List ℚ), (∀ s ∈ sc, 0 ≤ s) → ∀ idx : ℕ,
        Cli.runScales outdir idx sc images =
          sc.flatMap (fun s => images.map (fun p =>
            Cli.Event.save (outdir ++ "/" ++
                export_name p.1 (Cli.scaledDim p.2.width s)
                  (Cli.scaledDim p.2.height s))
              (Cli.scaledDim p.2.width s) (Cli.scaledDim p.2.height s))) := by
      intro sc
      induction sc with
      | nil => intro _ _; rfl
      | cons s rest ih =>
        intro hsc idx
        rw [Cli.runScales, List.flatMap_cons,
          Cli.processScale_nonneg _ _ _ _ (not_lt.mpr (hsc s (by simp))),
          ih (fun t ht => hsc t (by simp [ht])) (idx + 1)]
    exact key scales hs 0
  · intro weight fs d r g b hfs hgood
    rw [Cli.load_mask, hfs]
    simp only [hgood, if_true]
    rfl

/-- Witness for `C7_amended`: the all-nonnegative scale list `[2]` over one
mask-set yields exactly its one save event, and a well-formed directory
`sets/beta` is registered under the basename `beta`. -/
theorem C7_amended_witness :
    (∀ s ∈ [(2 : ℚ)], 0 ≤ s) ∧
    Cli.generateRun "output" [2] [("m", constImg ![1, 0, 0, 1])] =
      [(2 : ℚ)].flatMap (fun s => [("m", constImg ![1, 0, 0, 1])].map (fun p =>
        Cli.Event.save ("output" ++ "/" ++
            export_name p.1 (Cli.scaledDim p.2.width s)
              (Cli.scaledDim p.2.height s))
          (Cli.scaledDim p.2.width s) (Cli.scaledDim p.2.height s))) ∧
    (Cli.load_mask w815
        (fun d => if d = "sets/beta"
          then some (constImg ![1, 0, 0, 1], constImg ![0, 1, 0, 1],
            constImg ![0, 0, 1, 1])
          else none)
        ["sets/beta"] []).1 =
      .ok [(Cli.basename "sets/beta",
        Cli.CMask.generate
          ⟨![constImg ![1, 0, 0, 1], constImg ![0, 1, 0, 1],
            constImg ![0, 0, 1, 1]]⟩ w815)] := by
  refine ⟨by norm_num, ?_, ?_⟩
  · exact (C7_amended "output" [("m", constImg ![1, 0, 0, 1])] [2]
      (by norm_num)).1
  · exact (C7_amended "output" [("m", constImg ![1, 0, 0, 1])] [2]
      (by norm_num)).2 w815 _ "sets/beta" _ _ _ (by simp) (by rfl)

/-- C8: whenever any of the three positional weights lies outside `[0,1]`,
the run aborts with an error (Rust: non-zero process exit via `anyhow`)
whose message names the offending channel, and the event trace is empty —
no output directory is created and no mask file is read before the
validation failure. -/
theorem C8_weight_validation (a : Cli.Args) (outputExists : Bool)
    (fs : String → Option (Image × Image × Image))
    (h : ¬ (0 ≤ a.r ∧ a.r ≤ 1) ∨ ¬ (0 ≤ a.g ∧ a.g ≤ 1) ∨
      ¬ (0 ≤ a.b ∧ a.b ≤ 1)) :
    ∃ msg, Cli.mainRun a outputExists fs = (.error msg, []) ∧
      ((msg = "Red weight must be in [0, 1]" ∧ ¬ (0 ≤ a.r ∧ a.r ≤ 1)) ∨
        (msg = "Green weight must be in [0, 1]" ∧ ¬ (0 ≤ a.g ∧ a.g ≤ 1)) ∨
        (msg = "Blue weight must be in [0, 1]" ∧ ¬ (0 ≤ a.b ∧ a.b ≤ 1))) := by
  by_cases hr : 0 ≤ a.r ∧ a.r ≤ 1
  · by_cases hg : 0 ≤ a.g ∧ a.g ≤ 1
    · by_cases hb : 0 ≤ a.b ∧ a.b ≤ 1
      · exact absurd h (by simp [hr, hg, hb])
      · refine ⟨"Blue weight must be in [0, 1]", ?_,
          Or.inr (Or.inr ⟨rfl, hb⟩)⟩
        have e1 : Cli.ensure_args a outputExists =
            .error "Blue weight must be in [0, 1]" := by
          rw [Cli.ensure_args, if_neg (not_not_intro hr),
            if_neg (not_not_intro hg), if_pos hb]
        simp only [Cli.mainRun, e1]
    · refine ⟨"Green weight must be in [0, 1]", ?_, Or.inr (Or.inl ⟨rfl, hg⟩)⟩
      have e1 : Cli.ensure_args a outputExists =
          .error "Green weight must be in [0, 1]" := by
        rw [Cli.ensure_args, if_neg (not_not_intro hr), if_pos hg]
      simp only [Cli.mainRun, e1]
  · refine ⟨"Red weight must be in [0, 1]", ?_, Or.inl ⟨rfl, hr⟩⟩
    have e1 : Cli.ensure_args a outputExists =
        .error "Red weight must be in [0, 1]" := by
      rw [Cli.ensure_args, if_pos hr]
    simp only [Cli.mainRun, e1]

/-- A CLI invocation whose red weight 2 is out of range. -/
def badArgs : Cli.Args where
  r := 2
  g := 0
  b := 0
  output := "output"
  mask_directories := ["sets/alpha"]
  scale := []
  filter := Cli.Filter.Lanczos3

/-- Witness for `C8_weight_validation` at `badArgs` (red weight 2): the run
errors naming the red channel and performs no I/O event. -/
theorem C8_weight_validation_witness :
    (¬ (0 ≤ badArgs.r ∧ badArgs.r ≤ 1) ∨ ¬ (0 ≤ badArgs.g ∧ badArgs.g ≤ 1) ∨
      ¬ (0 ≤ badArgs.b ∧ badArgs.b ≤ 1)) ∧
    ∃ msg, Cli.mainRun badArgs false (fun _ => none) = (.error msg, []) ∧
      ((msg = "Red weight must be in [0, 1]" ∧
          ¬ (0 ≤ badArgs.r ∧ badArgs.r ≤ 1)) ∨
        (msg = "Green weight must be in [0, 1]" ∧
          ¬ (0 ≤ badArgs.g ∧ badArgs.g ≤ 1)) ∨
        (msg = "Blue weight must be in [0, 1]" ∧
          ¬ (0 ≤ badArgs.b ∧ badArgs.b ≤ 1))) := by
  have h : ¬ (0 ≤ badArgs.r ∧ badArgs.r ≤ 1) := by norm_num [badArgs]
  exact ⟨Or.inl h,
    C8_weight_validation badArgs false (fun _ => none) (Or.inl h)⟩

/-- Two preview states with different weights, scales and nothing else a
user could set — the GUI state has no filter field at all. -/
def gArgsA : Gui.GArgs where
  weight := w815
  scale := 1
  key := "m"

/-- A second, different preview state. -/
def gArgsB : Gui.GArgs where
  weight := ![1, 0, 0]
  scale := 2
  key := "m"

/-- C9 counterexample: the claim says the save action uses a *user-chosen*
resampling filter.  The save branch passes the literal
`imageops::FilterType::Lanczos3`: whatever the preview state, the export
filter is `Lanczos3` (in particular no user can obtain `Nearest`), so the
filter is fixed, not user-chosen. -/
theorem C9_counterexample :
    (Gui.save_action (fun _ => maskGA 1) gArgsA "a.png").filter =
      Cli.Filter.Lanczos3 ∧
    (Gui.save_action (fun _ => maskGA 1) gArgsB "b.png").filter =
      Cli.Filter.Lanczos3 ∧
    Cli.Filter.Lanczos3 ≠ Cli.Filter.Nearest := by
  refine ⟨rfl, rfl, ?_⟩
  intro hcontra
  exact Cli.Filter.noConfusion hcontra

/-- C9 amended: the save action regenerates the full-resolution image for
the current selection and weights, exports it at the currently configured
display scale to the dialog-chosen destination path (suggesting
`<key>_<nw>x<nh>.png`), but always resamples with the fixed `Lanczos3`
filter — the filter is not user-chosen. -/
theorem C9_save_action (masks : String → Mask) (cur : Gui.GArgs)
    (chosen : String) :
    (Gui.save_action masks cur chosen).source =
      GeneratedImage.new ((masks cur.key).generate cur.weight) ∧
    (Gui.save_action masks cur chosen).nwidth =
      Cli.scaledDim ((masks cur.key).generate cur.weight).width cur.scale ∧
    (Gui.save_action masks cur chosen).nheight =
      Cli.scaledDim ((masks cur.key).generate cur.weight).height cur.scale ∧
    (Gui.save_action masks cur chosen).suggested =
      export_name cur.key (Gui.save_action masks cur chosen).nwidth
        (Gui.save_action masks cur chosen).nheight ∧
    (Gui.save_action masks cur chosen).path = chosen ∧
    (Gui.save_action masks cur chosen).filter = Cli.Filter.Lanczos3 :=
  ⟨rfl, rfl, rfl, rfl, rfl, rfl⟩
